import Mathlib

/-!
# Verification of the HtmlParser importer/exporter

Shallow embedding of `src/index.ts` (HamsterNote HtmlParser).  JavaScript
numbers are modelled as either `NaN` or an exact rational (`ℚ`); float
rounding error is idealised away, which is exact for every value the claims
exercise.  JavaScript strings are modelled as Lean `String`s (operations work
on the underlying `List Char`; `String.length` counts code points where JS
counts UTF-16 units — identical on the BMP inputs considered here).  The DOM
tree produced by the external `DOMParser` collaborator is modelled by an
explicit tree type; `DOMParser` itself, `Date.now()`, `File`, `TextDecoder`
and the thumbnail fetch are external collaborators and enter the model as
parameters.
-/

/-! ## JavaScript number model -/

/-- A JavaScript number: `NaN` or an exact rational.  (`±Infinity` and `-0`
are outside the model; no modelled computation produces them on the inputs
considered.) -/
inductive JsNum where
  | nan : JsNum
  | num : ℚ → JsNum
deriving DecidableEq, Repr

/-- JS `+` (NaN-propagating). -/
def jsAdd : JsNum → JsNum → JsNum
  | .num a, .num b => .num (a + b)
  | _, _ => .nan

/-- JS `*` (NaN-propagating). -/
def jsMul : JsNum → JsNum → JsNum
  | .num a, .num b => .num (a * b)
  | _, _ => .nan

/-- JS `Math.round`: round half toward `+∞`; `Math.round(NaN) = NaN`. -/
def jsRound : JsNum → JsNum
  | .num q => .num (((q + 1/2).floor : ℤ) : ℚ)
  | .nan => .nan

/-- JS `Math.max` on two arguments: `NaN` if either argument is `NaN`. -/
def jsMax : JsNum → JsNum → JsNum
  | .num a, .num b => .num (max a b)
  | _, _ => .nan

/-- JS `Math.abs(v) < 1` (false when `v` is `NaN`). -/
def jsAbsLtOne : JsNum → Bool
  | .num q => |q| < 1
  | .nan => false

/-- JS numeric truthiness: `0` and `NaN` are falsy. -/
def jsTruthyNum : JsNum → Bool
  | .num q => q ≠ 0
  | .nan => false

/-- JS string truthiness for an optional string: `undefined` and `""` are falsy. -/
def jsTruthyStr : Option String → Bool
  | none => false
  | some s => s ≠ ""

/-- JS `a || d` for an optional string `a` and default `d`. -/
def jsOrStr (a : Option String) (d : String) : String :=
  if jsTruthyStr a then a.getD d else d

/-! ## JavaScript string helpers -/

/-- JS whitespace (`\s`, and the white space trimmed by `trim()`/`Number()`):
the characters relevant to this code base. -/
def isJsWs (c : Char) : Bool :=
  c = ' ' ∨ c = '\t' ∨ c = '\n' ∨ c = '\r' ∨ c = '\x0b' ∨ c = '\x0c' ∨
  c = ' ' ∨ c = '﻿'

/-- JS `String.prototype.trim` on a character list. -/
def jsTrimL (l : List Char) : List Char :=
  ((l.dropWhile isJsWs).reverse.dropWhile isJsWs).reverse

/-- JS `String.prototype.trim`. -/
def jsTrim (s : String) : String := ⟨jsTrimL s.data⟩

/-- JS `raw.replace(/\s+/g, ' ')`: each maximal run of whitespace becomes a
single space. -/
def collapseWs : List Char → List Char
  | [] => []
  | c :: rest =>
    if isJsWs c then
      match rest with
      | [] => [' ']
      | r :: _ => if isJsWs r then collapseWs rest else ' ' :: collapseWs rest
    else c :: collapseWs rest

/-- JS `html.split(/\n+/)`: split on maximal runs of `'\n'` (a run of
consecutive newlines is a single separator). -/
def splitNL : List Char → List (List Char)
  | [] => [[]]
  | c :: rest =>
    if c = '\n' then
      match rest with
      | '\n' :: _ => splitNL rest
      | _ => [] :: splitNL rest
    else
      match splitNL rest with
      | [] => [[c]]
      | seg :: segs => (c :: seg) :: segs

/-- JS `s.split(';')` on a character list (single-character separator). -/
def splitSemicolon : List Char → List (List Char)
  | [] => [[]]
  | c :: rest =>
    if c = ';' then [] :: splitSemicolon rest
    else
      match splitSemicolon rest with
      | [] => [[c]]
      | seg :: segs => (c :: seg) :: segs

/-- JS `s.indexOf(c)` for a single character: index of first occurrence. -/
def jsIndexOfChar (c : Char) : List Char → Option Nat
  | [] => none
  | x :: rest =>
    if x = c then some 0
    else (jsIndexOfChar c rest).map (· + 1)

/-- JS `s.replace(pat, '')` for a plain-string pattern: remove the first
occurrence of `pat` (used by the source as `raw.replace('px', '')`). -/
def removeFirstL (pat : List Char) : List Char → List Char
  | [] => []
  | c :: rest =>
    if pat.isPrefixOf (c :: rest) then (c :: rest).drop pat.length
    else c :: removeFirstL pat rest

/-- JS `s.endsWith(pat)` on character lists. -/
def endsWithL (pat l : List Char) : Bool := pat.isSuffixOf l

/-- Does `l` contain `pat` as a contiguous sublist (JS regex literal test)? -/
def containsSub (pat : List Char) : List Char → Bool
  | [] => pat.isPrefixOf ([] : List Char)
  | c :: rest => pat.isPrefixOf (c :: rest) || containsSub pat rest

/-- ASCII lower-casing (JS `toLowerCase`; the keys fed to it are ASCII). -/
def toLowerL (l : List Char) : List Char := l.map Char.toLower

/-! ## JS `Number(string)` -/

/-- Numeric value of a list of decimal digits. -/
def digitsVal (l : List Char) : ℕ :=
  l.foldl (fun a c => a * 10 + (c.toNat - '0'.toNat)) 0

/-- Value of a digit in radix 16 (or < 16 radices), `none` if invalid. -/
def hexDigitVal (c : Char) : Option ℕ :=
  if '0' ≤ c ∧ c ≤ '9' then some (c.toNat - '0'.toNat)
  else if 'a' ≤ c ∧ c ≤ 'f' then some (c.toNat - 'a'.toNat + 10)
  else if 'A' ≤ c ∧ c ≤ 'F' then some (c.toNat - 'A'.toNat + 10)
  else none

/-- Parse a non-empty digit string in radix `b` (digits must be < `b`). -/
def parseRadix (b : ℕ) (l : List Char) : Option ℕ :=
  if l.isEmpty then none
  else
    l.foldl (fun acc c =>
      acc.bind fun a =>
        (hexDigitVal c).bind fun d => if d < b then some (a * b + d) else none)
      (some 0)

/-- `10^e` for a signed exponent, as a rational. -/
def tenPow (e : ℤ) : ℚ :=
  if 0 ≤ e then ((10 : ℚ) ^ e.toNat) else (1 / (10 : ℚ) ^ (-e).toNat)

/-- Parse an unsigned decimal integer consuming the whole input. -/
def parseAllDigits (l : List Char) : Option ℕ :=
  if l ≠ [] ∧ l.all Char.isDigit then some (digitsVal l) else none

/-- Parse an optionally signed decimal integer consuming the whole input. -/
def parseSignedInt : List Char → Option ℤ
  | '+' :: rest => (parseAllDigits rest).map (fun n => (n : ℤ))
  | '-' :: rest => (parseAllDigits rest).map (fun n => -(n : ℤ))
  | l => (parseAllDigits l).map (fun n => (n : ℤ))

/-- Parse the optional exponent part (`e`/`E` then a signed integer);
empty input means exponent `0`. -/
def parseExpPart : List Char → Option ℤ
  | [] => some 0
  | c :: rest => if c = 'e' ∨ c = 'E' then parseSignedInt rest else none

/-- Parse an unsigned decimal literal (`digits [. digits] [exp]` or
`. digits [exp]`) consuming the whole input. -/
def parseUnsignedDec (l : List Char) : Option ℚ :=
  let intPart := l.takeWhile Char.isDigit
  let rest1 := l.dropWhile Char.isDigit
  match rest1 with
  | '.' :: rest2 =>
    let fracPart := rest2.takeWhile Char.isDigit
    let rest3 := rest2.dropWhile Char.isDigit
    if intPart.isEmpty ∧ fracPart.isEmpty then none
    else
      (parseExpPart rest3).map fun e =>
        ((digitsVal intPart : ℚ) + (digitsVal fracPart : ℚ) / (10 : ℚ) ^ fracPart.length) * tenPow e
  | _ =>
    if intPart.isEmpty then none
    else (parseExpPart rest1).map fun e => (digitsVal intPart : ℚ) * tenPow e

/-- JS `Number(string)`: trim, empty → `0`, radix prefixes, optional sign on
a decimal literal, otherwise `NaN`.  (`"Infinity"` is outside the model and
maps to `NaN`.) -/
def jsStringToNumber (s : String) : JsNum :=
  let t := jsTrimL s.data
  if t.isEmpty then .num 0
  else
    match t with
    | '0' :: 'x' :: rest | '0' :: 'X' :: rest =>
      match parseRadix 16 rest with
      | some n => .num (n : ℚ)
      | none => .nan
    | '0' :: 'o' :: rest | '0' :: 'O' :: rest =>
      match parseRadix 8 rest with
      | some n => .num (n : ℚ)
      | none => .nan
    | '0' :: 'b' :: rest | '0' :: 'B' :: rest =>
      match parseRadix 2 rest with
      | some n => .num (n : ℚ)
      | none => .nan
    | '+' :: rest =>
      match parseUnsignedDec rest with
      | some q => .num q
      | none => .nan
    | '-' :: rest =>
      match parseUnsignedDec rest with
      | some q => .num (-q)
      | none => .nan
    | _ =>
      match parseUnsignedDec t with
      | some q => .num q
      | none => .nan

/-! ## JS number-to-string -/

/-- Decimal digit string of a natural number, left-padded with zeros to
width `k`. -/
def padDigits (k : ℕ) (n : ℕ) : String :=
  let d := Nat.repr n
  ⟨List.replicate (k - d.length) '0' ++ d.data⟩

/-- Smallest `k ≤ 40` with `q·10^k` integral, if any. -/
def decExp (q : ℚ) : Option ℕ :=
  (List.range 41).find? fun k => (q * (10 : ℚ) ^ k).den = 1

/-- Render a non-negative rational the way JS renders the corresponding
double (exact for terminating decimals, which covers every double). -/
def ratToStringPos (q : ℚ) : String :=
  match decExp q with
  | some 0 => Nat.repr q.num.toNat
  | some k =>
    let n := (q * (10 : ℚ) ^ k).num.toNat
    Nat.repr (n / 10 ^ k) ++ "." ++ padDigits k (n % 10 ^ k)
  | none => Nat.repr q.num.toNat ++ "/" ++ Nat.repr q.den

/-- JS template-literal rendering of a number (`${v}`). -/
def jsNumToString : JsNum → String
  | .nan => "NaN"
  | .num q => if q < 0 then "-" ++ ratToStringPos (-q) else ratToStringPos q

/-- JS `v.toFixed(4)`: round to 4 decimals (ties away from zero on the
magnitude, per ECMA-262). -/
def jsToFixed4 : JsNum → String
  | .nan => "NaN"
  | .num q =>
    let s := if q < 0 then "-" else ""
    let n := ((|q| * 10000 + 1/2).floor).toNat
    s ++ Nat.repr (n / 10000) ++ "." ++ padDigits 4 (n % 10000)


/-! ## Style resolver (`parseInlineStyle` and friends) -/

/-- The transient per-element style record (`ParsedInlineStyle` in the
source); every field optional until resolution completes. -/
structure ParsedInlineStyle where
  fontSize : Option JsNum := none
  fontFamily : Option String := none
  fontWeight : Option JsNum := none
  italic : Option Bool := none
  color : Option String := none
  lineHeight : Option JsNum := none
deriving DecidableEq, Repr

/-- JS `Map.set` on an insertion-ordered association list (overwrite keeps
the original position, as `Map` does). -/
def mapSet (m : List (String × String)) (k v : String) : List (String × String) :=
  if m.any (fun p => p.1 = k) then m.map (fun p => if p.1 = k then (k, v) else p)
  else m ++ [(k, v)]

/-- JS `Map.get` on the association-list model. -/
def mapGet (m : List (String × String)) (k : String) : Option String :=
  (m.find? (fun p => p.1 = k)).map (fun p => p.2)

/-- `buildInlineStyleMap`: split the `style` text on `';'`; each declaration
with a `':'` contributes `key.trim().toLowerCase() → value.trim()` when both
are non-empty. -/
def buildInlineStyleMap (styleText : Option String) : List (String × String) :=
  match styleText with
  | none => []
  | some txt =>
    if txt = "" then []
    else
      (splitSemicolon txt.data).foldl (fun acc decl =>
        match jsIndexOfChar ':' decl with
        | none => acc
        | some i =>
          let key : String := ⟨toLowerL (jsTrimL (decl.take i))⟩
          let value : String := ⟨jsTrimL (decl.drop (i + 1))⟩
          if key ≠ "" ∧ value ≠ "" then mapSet acc key value else acc) []

/-- `parseFontSizeValue`: `"…px"` → `Number` of the rest (first `px`
removed), `"…em"` → the same with `NaN`/`0` replaced by `1`, else unset. -/
def parseFontSizeValue (raw : Option String) : Option JsNum :=
  if ¬ jsTruthyStr raw then none
  else
    let r := (raw.getD ("")).data
    if endsWithL ("px".data) r then some (jsStringToNumber ⟨removeFirstL ("px".data) r⟩)
    else if endsWithL ("em".data) r then
      let val := jsStringToNumber ⟨removeFirstL ("em".data) r⟩
      some (if val = .nan ∨ val = .num 0 then .num 1 else val)
    else none

/-- `parseLineHeightValue`: like font-size but `em` falls back to `1.2` and a
bare numeric string is accepted. -/
def parseLineHeightValue (raw : Option String) : Option JsNum :=
  if ¬ jsTruthyStr raw then none
  else
    let r := (raw.getD ("")).data
    if endsWithL ("px".data) r then some (jsStringToNumber ⟨removeFirstL ("px".data) r⟩)
    else if endsWithL ("em".data) r then
      let val := jsStringToNumber ⟨removeFirstL ("em".data) r⟩
      some (if val = .nan ∨ val = .num 0 then .num (6/5) else val)
    else
      match jsStringToNumber (raw.getD ("")) with
      | .nan => none
      | .num q => some (.num q)

/-- `parseFontWeightValue`: `bold` → 700, `normal` → 400, numeric → itself
(`NaN`/`0` → 400). -/
def parseFontWeightValue (raw : Option String) : Option JsNum :=
  if ¬ jsTruthyStr raw then none
  else if raw.getD ("") = "bold" then some (.num 700)
  else if raw.getD ("") = "normal" then some (.num 400)
  else
    match jsStringToNumber (raw.getD ("")) with
    | .nan => some (.num 400)
    | .num q => some (if q = 0 then JsNum.num 400 else JsNum.num q)

/-- `parseItalicValue`: `/italic|oblique/i.test(raw)`. -/
def parseItalicValue (raw : Option String) : Option Bool :=
  if ¬ jsTruthyStr raw then none
  else
    let low := toLowerL (raw.getD ("")).data
    some (containsSub ("italic".data) low || containsSub ("oblique".data) low)

/-- `parseInlineStyle` of an element, given its `style` attribute
(`getAttribute('style')`). -/
def parseInlineStyle (styleAttr : Option String) : ParsedInlineStyle :=
  let map := buildInlineStyleMap styleAttr
  { fontSize := parseFontSizeValue (mapGet map ("font-size"))
    lineHeight := parseLineHeightValue (mapGet map ("line-height"))
    fontWeight := parseFontWeightValue (mapGet map ("font-weight"))
    italic := parseItalicValue (mapGet map ("font-style"))
    color := mapGet map ("color")
    fontFamily := mapGet map ("font-family") }

/-- `mergeInlineStyleValue`: write `source`'s field into `target` only when
`target`'s field is still unset (`target[key] == null`) and the source field
is set (`value != null`). -/
def mergeInlineStyleValue {α : Type} (target source : Option α) : Option α :=
  match target with
  | some v => some v
  | none => source

/-- Merge a source `ParsedInlineStyle` into an accumulator, field by field,
first-write-wins. -/
def mergeInlineStyle (target source : ParsedInlineStyle) : ParsedInlineStyle :=
  { fontSize := mergeInlineStyleValue target.fontSize source.fontSize
    fontFamily := mergeInlineStyleValue target.fontFamily source.fontFamily
    fontWeight := mergeInlineStyleValue target.fontWeight source.fontWeight
    italic := mergeInlineStyleValue target.italic source.italic
    color := mergeInlineStyleValue target.color source.color
    lineHeight := mergeInlineStyleValue target.lineHeight source.lineHeight }

/-- The upward walk of `collectAncestorInlineStyle` before defaults are
applied: fold the parsed inline styles of the element ancestors (nearest
first) into the accumulator. -/
def collectChain (ancestors : List (Option String)) : ParsedInlineStyle :=
  ancestors.foldl (fun acc sty => mergeInlineStyle acc (parseInlineStyle sty)) {}

/-- The fully resolved style after defaults. -/
structure ResolvedStyle where
  fontSize : JsNum
  lineHeight : JsNum
  fontWeight : JsNum
  italic : Bool
  color : String
  fontFamily : String
deriving DecidableEq, Repr

/-- `collectAncestorInlineStyle`: walk the element ancestors (their `style`
attributes, nearest first), then fill unset fields with the defaults
(`?? defaults.fontSize`, `?? fontSize * defaults.lineHeight`, `?? 400`,
`!!italic`, `|| '#000'`, `|| ''`). -/
def collectAncestorInlineStyle (ancestors : List (Option String))
    (dFontSize dLineHeight : JsNum) : ResolvedStyle :=
  let collected := collectChain ancestors
  let fontSize := collected.fontSize.getD dFontSize
  let lineHeight := collected.lineHeight.getD (jsMul fontSize dLineHeight)
  { fontSize := fontSize
    lineHeight := lineHeight
    fontWeight := collected.fontWeight.getD (.num 400)
    italic := collected.italic.getD false
    color := jsOrStr collected.color ("#000")
    fontFamily := jsOrStr collected.fontFamily ("") }

/-! ## Text metrics estimator and direction detector -/

structure TextMetrics where
  width : JsNum
  height : JsNum
  ascent : JsNum
  descent : JsNum
deriving DecidableEq, Repr

/-- `estimateTextMetrics`: `width = max(1, round(len * fontSize * 0.6))`,
`height = max(1, round(lineHeight))`, `ascent = round(fontSize * 0.8)`,
`descent = round(fontSize * 0.2)`. -/
def estimateTextMetrics (content : String) (fontSize lineHeight : JsNum) : TextMetrics :=
  { width := jsMax (.num 1) (jsRound (jsMul (jsMul (.num (content.length : ℚ)) fontSize) (.num (6/10))))
    height := jsMax (.num 1) (jsRound lineHeight)
    ascent := jsRound (jsMul fontSize (.num (8/10)))
    descent := jsRound (jsMul fontSize (.num (2/10))) }

inductive TextDir where
  | LTR | RTL | TTB
deriving DecidableEq, Repr

/-- One character of the RTL heuristic ranges
(`[֑-߿יִ-﷽ﹰ-ﻼ]`). -/
def isRtlChar (c : Char) : Bool :=
  (0x591 ≤ c.toNat ∧ c.toNat ≤ 0x7FF) ∨ (0xFB1D ≤ c.toNat ∧ c.toNat ≤ 0xFDFD) ∨
  (0xFE70 ≤ c.toNat ∧ c.toNat ≤ 0xFEFC)

/-- `detectDir`: RTL iff some character matches the heuristic ranges. -/
def detectDir (text : String) : TextDir :=
  if text.data.any isRtlChar then .RTL else .LTR

/-! ## Intermediate model entities -/

/-- The `IntermediateText` entity (a text run), as constructed by this
importer. -/
structure IntermediateText where
  id : String
  content : String
  fontSize : JsNum
  fontFamily : String
  fontWeight : JsNum
  italic : Bool
  color : String
  width : JsNum
  height : JsNum
  lineHeight : JsNum
  x : JsNum
  y : JsNum
  ascent : JsNum
  descent : JsNum
  vertical : Bool
  dir : TextDir
  rotate : JsNum
  skew : JsNum
  isEOL : Bool
deriving DecidableEq, Repr

/-- The single `IntermediatePage` this importer produces. -/
structure IntermediatePage where
  id : String
  number : Nat
  width : JsNum
  height : JsNum
  texts : List IntermediateText
deriving DecidableEq, Repr

/-- The resulting document (id comes from `Date.now()`, an external input;
it is a parameter of the model). -/
structure EncodedDocument where
  id : String
  title : String
  pages : List IntermediatePage
deriving DecidableEq, Repr

/-! ## HTML importer (`collectTextsFromHtml`)

`DOMParser` is an external collaborator: the model starts from the node tree
it produced.  `tagName` is stored as the DOM reports it (upper-case for HTML
elements). -/

/-- A DOM node: an element (tag name, `style` attribute, children), a text
node, or any other node kind (comment, CDATA, …), which the walk ignores. -/
inductive DomNode where
  | element (tagName : String) (styleAttr : Option String) (children : List DomNode)
  | textNode (textContent : String)
  | otherNode

/-- State threaded through the `walk` closure: next run index, running
vertical offset, runs collected so far. -/
structure WalkState where
  idx : Nat
  y : JsNum
  texts : List IntermediateText
deriving Repr

/-- The run built for one surviving text node (the `new IntermediateText`
call inside `walk`). -/
def makeRun (docId : String) (idx : Nat) (y : JsNum) (content : String)
    (sty : ResolvedStyle) : IntermediateText :=
  let m := estimateTextMetrics content sty.fontSize sty.lineHeight
  { id := docId ++ "-page-1-text-" ++ Nat.repr idx
    content := content
    fontSize := sty.fontSize
    fontFamily := sty.fontFamily
    fontWeight := sty.fontWeight
    italic := sty.italic
    color := sty.color
    width := m.width
    height := m.height
    lineHeight := sty.lineHeight
    x := .num 0
    y := y
    ascent := m.ascent
    descent := m.descent
    vertical := false
    dir := detectDir content
    rotate := .num 0
    skew := .num 0
    isEOL := true }

mutual

/-- The `walk` closure of `collectTextsFromHtml` on one node.  `chain` holds
the `style` attributes of the element ancestors of the node, nearest first
(the chain `collectAncestorInlineStyle` would walk). -/
def walkNode (docId : String) (chain : List (Option String)) (s : WalkState) :
    DomNode → WalkState
  | .element tag sty children =>
    if tag = "SCRIPT" ∨ tag = "STYLE" then s
    else walkList docId (sty :: chain) s children
  | .textNode raw =>
    let content : String := ⟨jsTrimL (collapseWs raw.data)⟩
    if content = "" then s
    else
      let sty := collectAncestorInlineStyle chain (.num 16) (.num (12/10))
      let t := makeRun docId s.idx s.y content sty
      { idx := s.idx + 1, y := jsAdd s.y t.height, texts := s.texts ++ [t] }
  | .otherNode => s

/-- `walk` over the children, left to right. -/
def walkList (docId : String) (chain : List (Option String)) (s : WalkState) :
    List DomNode → WalkState
  | [] => s
  | n :: rest => walkList docId chain (walkNode docId chain s n) rest

end

/-- Result of the structural import. -/
structure CollectResult where
  texts : List IntermediateText
  pageHeight : JsNum
deriving Repr

/-- Page height: `Math.max(1, Math.round(texts.reduce((a, t) => Math.max(a,
t.y + t.height), 0)))`. -/
def computePageHeight (texts : List IntermediateText) : JsNum :=
  jsMax (.num 1) (jsRound (texts.foldl (fun a t => jsMax a (jsAdd t.y t.height)) (.num 0)))

/-- `collectTextsFromHtml`, starting from the parsed document's `body`
element.  `bodyChain` holds the `style` attributes of `body`'s element
ancestors (for a `DOMParser` document, the `html` element).  The document
title is produced by the external DOM and not modelled here. -/
def collectTextsFromHtml (docId : String) (bodyChain : List (Option String))
    (body : DomNode) : CollectResult :=
  let s := walkNode docId bodyChain { idx := 0, y := .num 0, texts := [] } body
  { texts := s.texts, pageHeight := computePageHeight s.texts }

/-! ## Fallback plain-text path (`fallbackPlainText`) -/

/-- One step of the fallback loop: a blank (after trim) line advances `y` by
one line height without a run; any other line becomes a run. -/
def fallbackStep (docId : String) (fontSize lineHeight : JsNum) (s : WalkState)
    (ln : List Char) : WalkState :=
  let content : String := ⟨jsTrimL ln⟩
  if content = "" then { s with y := jsAdd s.y lineHeight }
  else
    let m := estimateTextMetrics content fontSize lineHeight
    let t : IntermediateText :=
      { id := docId ++ "-page-1-text-" ++ Nat.repr s.idx
        content := content
        fontSize := fontSize
        fontFamily := ""
        fontWeight := .num 400
        italic := false
        color := "#000"
        width := m.width
        height := m.height
        lineHeight := lineHeight
        x := .num 0
        y := s.y
        ascent := m.ascent
        descent := m.descent
        vertical := false
        dir := .LTR
        rotate := .num 0
        skew := .num 0
        isEOL := true }
    { idx := s.idx + 1, y := jsAdd s.y t.height, texts := s.texts ++ [t] }

/-- `fallbackPlainText`: split the raw input on `/\n+/` and fold the lines. -/
def fallbackPlainText (html : String) (docId : String) : CollectResult :=
  let fontSize : JsNum := .num 16
  let lineHeight := jsRound (jsMul fontSize (.num (12/10)))
  let s := (splitNL html.data).foldl (fallbackStep docId fontSize lineHeight)
    { idx := 0, y := .num 0, texts := [] }
  { texts := s.texts, pageHeight := computePageHeight s.texts }

/-! ## `encode`, in an environment without `DOMParser`

`toArrayBuffer`/`TextDecoder` succeed on the already-decoded string input;
`Date.now()` enters through `docId`.  With `typeof DOMParser === 'undefined'`
the structural branch is skipped, `texts` stays empty, and the fallback
runs; the title keeps its initial value `'Untitled HTML'`. -/
def encodeNoDom (html : String) (docId : String) : EncodedDocument :=
  let res := fallbackPlainText html docId
  { id := docId
    title := "Untitled HTML"
    pages := [{ id := docId ++ "-page-1"
                number := 1
                width := .num 800
                height := res.pageHeight
                texts := res.texts }] }

/-! ## HTML exporter -/

/-- JS `str.replace(/c/g, rep)` for a single-character pattern: every
occurrence of `c` becomes `rep`. -/
def replaceAllChar (c : Char) (rep : List Char) (l : List Char) : List Char :=
  l.foldr (fun ch acc => if ch = c then rep ++ acc else ch :: acc) []

/-- `escapeHtml` on character lists: the source's five sequential global
replaces, `&` first, then `<`, `>`, `"`, `'`. -/
def escapeHtmlL (l : List Char) : List Char :=
  replaceAllChar '\'' ("&#39;".data) <|
    replaceAllChar '"' ("&quot;".data) <|
      replaceAllChar '>' ("&gt;".data) <|
        replaceAllChar '<' ("&lt;".data) <|
          replaceAllChar '&' ("&amp;".data) l

/-- `escapeHtml`. -/
def escapeHtml (text : String) : String := ⟨escapeHtmlL text.data⟩

/-- `cssPxOrPercent`: `|val| < 1` → percentage with 4 decimals, else `px`. -/
def cssPxOrPercent (val : JsNum) : String :=
  if jsAbsLtOne val then jsToFixed4 (jsMul val (.num 100)) ++ "%"
  else jsNumToString val ++ "px"

/-- `cssFontSize`: `|val| < 1` → `em`, else `px`. -/
def cssFontSize (val : JsNum) : String :=
  if jsAbsLtOne val then jsNumToString val ++ "em"
  else jsNumToString val ++ "px"

/-- A single-quote character as a string (used by the thumbnail `url('…')`). -/
def sglQuote : String := "\x27"

/-- `renderTextSpan`: the exporter's per-run span markup, transcribed from
the template literal in the source. -/
def renderTextSpan (t : IntermediateText) : String :=
  let left := cssPxOrPercent t.x
  let top := cssPxOrPercent t.y
  let fs := cssFontSize t.fontSize
  let lh := cssFontSize t.lineHeight
  let width := cssPxOrPercent t.width
  let height := cssPxOrPercent t.height
  let dir := if t.dir = TextDir.RTL then "rtl" else "ltr"
  let writingMode :=
    if t.vertical || t.dir = TextDir.TTB then "vertical-rl" else "horizontal-tb"
  let color :=
    if t.color ≠ "" ∧ t.color ≠ "transparent" then "color:" ++ t.color ++ ";" else ""
  let family := if t.fontFamily ≠ "" then "font-family:" ++ t.fontFamily ++ ";" else ""
  let weight :=
    "font-weight:" ++
      jsNumToString (if jsTruthyNum t.fontWeight then t.fontWeight else .num 400) ++ ";"
  let fontStyle := if t.italic then "font-style:italic;" else "font-style:normal;"
  let transformParts : List String :=
    (if jsTruthyNum t.rotate then ["rotate(" ++ jsNumToString t.rotate ++ "deg)"] else []) ++
      (if jsTruthyNum t.skew then ["skewX(" ++ jsNumToString t.skew ++ "deg)"] else [])
  let transform :=
    if transformParts ≠ [] then
      "transform:" ++ String.intercalate (" ") transformParts ++ ";"
    else ""
  "<span class=\"hamster-note-text\" id=\"" ++ t.id ++ "\" style=\"left:" ++ left ++
    ";top:" ++ top ++ ";width:" ++ width ++ ";height:" ++ height ++ ";font-size:" ++ fs ++
    ";line-height:" ++ lh ++ ";" ++ weight ++ fontStyle ++ family ++ color ++
    "direction:" ++ dir ++ ";writing-mode:" ++ writingMode ++ ";" ++ transform ++ "\">" ++
    escapeHtml t.content ++ "</span>"

/-- `lazyRenderPageDiv`: the per-page markup; `thumb` is the result of the
external `getThumbnail(0.3)` (`undefined` or a URL string). -/
def lazyRenderPageDiv (p : IntermediatePage) (thumb : Option String) : String :=
  let texts := String.join (p.texts.map renderTextSpan)
  let bg :=
    if jsTruthyStr thumb then
      "background-image:url(" ++ sglQuote ++ thumb.getD ("") ++ sglQuote ++ ");"
    else ""
  "<div class=\"hamster-note-page\" id=\"" ++ p.id ++ "\" style=\"width:" ++
    cssPxOrPercent p.width ++ ";height:" ++ cssPxOrPercent p.height ++ ";" ++ bg ++ "\">" ++
    texts ++ "</div>"

/-! ## Specification-side definitions used by the theorems -/

/-- Modelled from the spec's words (§4.2 Text Metrics Estimator):
`width = max(1, round(charCount × fontSize × 0.6))`;
`height = max(1, round(lineHeight))`; `ascent = round(fontSize × 0.8)`;
`descent = round(fontSize × 0.2)`. -/
def estimateTextMetricsSpec (content : String) (fontSize lineHeight : JsNum) : TextMetrics :=
  { width := jsMax (.num 1) (jsRound (jsMul (jsMul (.num (content.length : ℚ)) fontSize) (.num (6/10))))
    height := jsMax (.num 1) (jsRound lineHeight)
    ascent := jsRound (jsMul fontSize (.num (8/10)))
    descent := jsRound (jsMul fontSize (.num (2/10))) }

/-- Accumulate run heights onto a starting offset (the importer's running
`y`). -/
def sumHeights (y0 : JsNum) (l : List IntermediateText) : JsNum :=
  l.foldl (fun a t => jsAdd a t.height) y0

/-- `v` is an actual number that is at least 1. -/
def jsGeOne (v : JsNum) : Prop := ∃ q : ℚ, v = JsNum.num q ∧ 1 ≤ q

/-- Layout invariant of a block of consecutively emitted runs, starting at
run index `i0` and vertical offset `y0`: ids are consecutive, `x = 0`, `y`
accumulates heights, orientation/transform fields are fixed, and each
dimension is `NaN` or at least 1. -/
def runsSpec (docId : String) : Nat → JsNum → List IntermediateText → Prop
  | _, _, [] => True
  | i0, y0, t :: rest =>
    t.id = docId ++ "-page-1-text-" ++ Nat.repr i0 ∧
    t.x = JsNum.num 0 ∧ t.y = y0 ∧ t.vertical = false ∧
    t.rotate = JsNum.num 0 ∧ t.skew = JsNum.num 0 ∧ t.isEOL = true ∧
    (t.width = JsNum.nan ∨ jsGeOne t.width) ∧
    (t.height = JsNum.nan ∨ jsGeOne t.height) ∧
    runsSpec docId (i0 + 1) (jsAdd y0 t.height) rest

mutual

/-- The surviving text nodes of a depth-first traversal: script/style
subtrees are skipped, text content is whitespace-collapsed and trimmed,
empty results are dropped. -/
def survivingTexts : DomNode → List String
  | .element tag _ children =>
    if tag = "SCRIPT" ∨ tag = "STYLE" then [] else survivingTextsList children
  | .textNode raw =>
    let c : String := ⟨jsTrimL (collapseWs raw.data)⟩
    if c = "" then [] else [c]
  | .otherNode => []

/-- Depth-first traversal of a child list. -/
def survivingTextsList : List DomNode → List String
  | [] => []
  | n :: rest => survivingTexts n ++ survivingTextsList rest

end

/-- Per-character HTML escaping (the expected effect of `escapeHtml`). -/
def escapeChar (c : Char) : List Char :=
  if c = '&' then ("&amp;".data)
  else if c = '<' then ("&lt;".data)
  else if c = '>' then ("&gt;".data)
  else if c = '"' then ("&quot;".data)
  else if c = '\'' then ("&#39;".data)
  else [c]

/-- Prefix test on character lists (structural). -/
def isPre : List Char → List Char → Bool
  | [], _ => true
  | _ :: _, [] => false
  | p :: ps, c :: cs => p = c && isPre ps cs

/-- Every `'&'` in the list begins one of the five entities introduced by
`escapeHtml` (i.e. there is no raw, un-escaped ampersand). -/
def ampOkB : List Char → Bool
  | [] => true
  | c :: rest =>
    if c = '&' then
      (isPre ("amp;".data) rest || isPre ("lt;".data) rest || isPre ("gt;".data) rest ||
        isPre ("quot;".data) rest || isPre ("#39;".data) rest) && ampOkB rest
    else ampOkB rest

/-! ## Concrete fixtures for counterexamples and witnesses -/

/-- A junk run used as the default of `List.getD` (never actually read when
the index is in bounds). -/
def defaultRun : IntermediateText :=
  { id := "", content := "", fontSize := .num 0, fontFamily := "", fontWeight := .num 0,
    italic := false, color := "", width := .num 0, height := .num 0, lineHeight := .num 0,
    x := .num 0, y := .num 0, ascent := .num 0, descent := .num 0, vertical := false,
    dir := .LTR, rotate := .num 0, skew := .num 0, isEOL := false }

/-- The run produced by the fallback path for input `"hi"` with document id
`"d"`. -/
def fbRun : IntermediateText :=
  { id := "d-page-1-text-0", content := "hi", fontSize := .num 16, fontFamily := "",
    fontWeight := .num 400, italic := false, color := "#000", width := .num 19,
    height := .num 19, lineHeight := .num 19, x := .num 0, y := .num 0, ascent := .num 13,
    descent := .num 3, vertical := false, dir := .LTR, rotate := .num 0, skew := .num 0,
    isEOL := true }

/-- The run produced by the structural path for a bare text node `"hi"`
with no styled ancestors and document id `"d"`. -/
def domRun : IntermediateText :=
  { id := "d-page-1-text-0", content := "hi", fontSize := .num 16, fontFamily := "",
    fontWeight := .num 400, italic := false, color := "#000", width := .num 19,
    height := .num 19, lineHeight := .num (96/5), x := .num 0, y := .num 0,
    ascent := .num 13, descent := .num 3, vertical := false, dir := .LTR,
    rotate := .num 0, skew := .num 0, isEOL := true }

/-- A two-text-node body used to exercise the structural layout claim. -/
def body0 : DomNode :=
  .element ("DIV") none [.textNode ("a"), .textNode ("b")]

/-- A run whose id, color and font-family all contain a double quote (for
the verbatim-interpolation claim). -/
def quoteRun : IntermediateText :=
  { id := "x\"y", content := "c", fontSize := .num 16, fontFamily := "f\"g",
    fontWeight := .num 400, italic := false, color := "r\"b", width := .num 10,
    height := .num 19, lineHeight := .num 19, x := .num 0, y := .num 0, ascent := .num 13,
    descent := .num 3, vertical := false, dir := .LTR, rotate := .num 0, skew := .num 0,
    isEOL := true }

/-- A page whose id contains a double quote. -/
def quotePage : IntermediatePage :=
  { id := "p\"q", number := 1, width := .num 800, height := .num 19, texts := [] }

/-! ## Claim theorems -/

/-- C5: for every content string, fontSize and lineHeight, the metrics
estimator returns exactly `width = max(1, round(charCount × fontSize × 0.6))`,
`height = max(1, round(lineHeight))`, `ascent = round(fontSize × 0.8)`,
`descent = round(fontSize × 0.2)`, a pure deterministic function of those
three inputs. -/
theorem estimateTextMetrics_correct (content : String) (fontSize lineHeight : JsNum) :
    estimateTextMetrics content fontSize lineHeight =
      estimateTextMetricsSpec content fontSize lineHeight := rfl

/-- C7: position/size rendering yields `(v×100).toFixed(4)%` when `|v| < 1`
and `vpx` otherwise; font-size/line-height rendering yields `vem` when
`|v| < 1` and `vpx` otherwise; in particular `0.5 → "50.0000%"`,
`12 → "12px"`, `0.5 → "0.5em"`, `20 → "20px"`. -/
theorem css_unit_selection_correct :
    (∀ v : JsNum, cssPxOrPercent v =
      if jsAbsLtOne v then jsToFixed4 (jsMul v (.num 100)) ++ "%"
      else jsNumToString v ++ "px") ∧
    (∀ v : JsNum, cssFontSize v =
      if jsAbsLtOne v then jsNumToString v ++ "em" else jsNumToString v ++ "px") ∧
    cssPxOrPercent (.num (1/2)) = "50.0000%" ∧
    cssPxOrPercent (.num 12) = "12px" ∧
    cssFontSize (.num (1/2)) = "0.5em" ∧
    cssFontSize (.num 20) = "20px" := by
  refine ⟨fun v => rfl, fun v => rfl, ?_, ?_, ?_, ?_⟩ <;> with_unfolding_all decide

/-- C1 counterexample: on `"Line one\n\nLine two"` the fallback's second run
has `y = 19`, not `38` — `split(/\n+/)` treats the consecutive newlines as a
single separator, so no blank line ever reaches the loop. -/
theorem fallbackPlainText_blank_line_cx :
    ¬ ((fallbackPlainText ("Line one\n\nLine two") ("doc")).texts.map (fun t => t.y) =
      [JsNum.num 0, JsNum.num 38]) := by with_unfolding_all decide

/-- C1 amended: the input yields exactly two runs `"Line one"`, `"Line two"`
and no third run, but the blank line does not advance the vertical offset
(the `/\n+/` split collapses it into the separator): the second run's `y` is
one line height, 19. -/
theorem fallbackPlainText_blank_line_amended :
    (fallbackPlainText ("Line one\n\nLine two") ("doc")).texts.map (fun t => t.content) =
      ["Line one", "Line two"] ∧
    (fallbackPlainText ("Line one\n\nLine two") ("doc")).texts.map (fun t => t.y) =
      [JsNum.num 0, JsNum.num 19] :=
  ⟨by with_unfolding_all decide, by with_unfolding_all decide⟩

/-- C9 counterexample: with no DOM parser, the fallback splits on newlines
only; `"<h1>标题</h1><p>第一段</p><p>第二段</p>"` contains none, so one run is
produced, not 3. -/
theorem encode_no_dom_cx :
    ¬ ((encodeNoDom ("<h1>标题</h1><p>第一段</p><p>第二段</p>") ("d")).pages.map
      (fun p => p.texts.length) = [3]) := by with_unfolding_all decide

/-- C9 amended: the document is titled `"Untitled HTML"` and has exactly one
page containing exactly one run whose content is the entire raw markup
string (the input has no newlines for the line-based fallback to split on). -/
theorem encode_no_dom_amended :
    (encodeNoDom ("<h1>标题</h1><p>第一段</p><p>第二段</p>") ("d")).title = "Untitled HTML" ∧
    (encodeNoDom ("<h1>标题</h1><p>第一段</p><p>第二段</p>") ("d")).pages.length = 1 ∧
    (encodeNoDom ("<h1>标题</h1><p>第一段</p><p>第二段</p>") ("d")).pages.map
      (fun p => p.texts.map (fun t => t.content)) =
      [["<h1>标题</h1><p>第一段</p><p>第二段</p>"]] :=
  ⟨rfl, rfl, by with_unfolding_all decide⟩

/-- C2 counterexample: `"font-size: abcpx"` resolves to `NaN`, not the
documented default 16, and the run created under that style carries the
`NaN` fontSize. -/
theorem style_nan_cx :
    (collectAncestorInlineStyle [some ("font-size: abcpx")] (.num 16) (.num (12/10))).fontSize =
      JsNum.nan ∧
    (collectTextsFromHtml ("d") []
      (.element ("DIV") (some ("font-size: abcpx")) [.textNode ("hi")])).texts.map
        (fun t => t.fontSize) = [JsNum.nan] ∧
    JsNum.nan ≠ JsNum.num 16 :=
  ⟨by with_unfolding_all decide, by with_unfolding_all decide, by with_unfolding_all decide⟩

/-- The `em` fallback of the numeric CSS parsers never yields `NaN`. -/
theorem em_branch_ne_nan (val : JsNum) (d : ℚ) :
    some (if val = JsNum.nan ∨ val = JsNum.num 0 then JsNum.num d else val) ≠
      some JsNum.nan := by
  split
  · simp
  · rename_i hne
    intro hc
    exact hne (Or.inl (Option.some.inj hc))

/-- C2 amended: malformed values that are not `px`-suffixed resolve to the
documented defaults and never to `NaN` (malformed `em` font-size → 1,
malformed `em` line-height → 1.2, malformed bare line-height → unset,
malformed font-weight → 400), and no error is raised anywhere; but a
`px`-suffixed value whose numeric part is unparsable (e.g.
`"font-size: abcpx"`) resolves to `NaN`, which is propagated into the
created run. -/
theorem malformed_style_defaults_amended :
    (∀ raw : String, endsWithL ("px".data) raw.data = false →
      parseFontSizeValue (some raw) ≠ some JsNum.nan ∧
      parseLineHeightValue (some raw) ≠ some JsNum.nan) ∧
    (∀ raw : Option String, parseFontWeightValue raw ≠ some JsNum.nan) ∧
    parseFontSizeValue (some ("abcem")) = some (JsNum.num 1) ∧
    parseLineHeightValue (some ("abcem")) = some (JsNum.num (6/5)) ∧
    parseLineHeightValue (some ("abc")) = none ∧
    parseFontWeightValue (some ("abc")) = some (JsNum.num 400) ∧
    (collectAncestorInlineStyle [some ("font-size: abcpx")] (.num 16) (.num (12/10))).fontSize =
      JsNum.nan := by
  refine ⟨?_, ?_, ?_, ?_, ?_, ?_, ?_⟩
  · intro raw h
    constructor
    · unfold parseFontSizeValue
      split
      · simp
      · simp only [Option.getD_some, h, Bool.false_eq_true, if_false]
        split
        · exact em_branch_ne_nan _ _
        · simp
    · unfold parseLineHeightValue
      split
      · simp
      · simp only [Option.getD_some, h, Bool.false_eq_true, if_false]
        split
        · exact em_branch_ne_nan _ _
        · split <;> simp
  · intro raw
    unfold parseFontWeightValue
    split
    · simp
    · split
      · simp
      · split
        · simp
        · split
          · simp
          · split <;> simp
  · with_unfolding_all decide
  · with_unfolding_all decide
  · with_unfolding_all decide
  · with_unfolding_all decide
  · with_unfolding_all decide

/-- Witness for the amended C2 theorem at concrete inputs. -/
theorem malformed_style_defaults_amended_witness :
    (endsWithL ("px".data) ("12qq".data) = false) ∧
    parseFontSizeValue (some ("12qq")) ≠ some JsNum.nan ∧
    parseFontWeightValue (some ("xyz")) ≠ some JsNum.nan :=
  ⟨by with_unfolding_all decide,
    (malformed_style_defaults_amended.1 ("12qq") (by with_unfolding_all decide)).1,
    malformed_style_defaults_amended.2.1 (some ("xyz"))⟩

/-- Merging an unset source field is the identity. -/
theorem mergeInlineStyleValue_none {α : Type} (t : Option α) :
    mergeInlineStyleValue t none = t := by
  cases t <;> rfl

/-- Field-level merge is associative. -/
theorem mergeInlineStyleValue_assoc {α : Type} (a b c : Option α) :
    mergeInlineStyleValue (mergeInlineStyleValue a b) c =
      mergeInlineStyleValue a (mergeInlineStyleValue b c) := by
  cases a <;> cases b <;> rfl

/-- Merging the empty style on the right is the identity. -/
theorem mergeInlineStyle_empty (t : ParsedInlineStyle) : mergeInlineStyle t {} = t := by
  simp [mergeInlineStyle, mergeInlineStyleValue_none]

/-- Merging the empty style on the left is the identity. -/
theorem mergeInlineStyle_empty_left (s : ParsedInlineStyle) : mergeInlineStyle {} s = s := by
  simp [mergeInlineStyle, mergeInlineStyleValue]

/-- Style merge is associative. -/
theorem mergeInlineStyle_assoc (a b c : ParsedInlineStyle) :
    mergeInlineStyle (mergeInlineStyle a b) c = mergeInlineStyle a (mergeInlineStyle b c) := by
  simp [mergeInlineStyle, mergeInlineStyleValue_assoc]

/-- Folding the merge from any accumulator equals merging the accumulator
with the fold from the empty style. -/
theorem collectChain_from (l : List (Option String)) :
    ∀ init : ParsedInlineStyle,
      l.foldl (fun acc sty => mergeInlineStyle acc (parseInlineStyle sty)) init =
        mergeInlineStyle init (collectChain l) := by
  induction l with
  | nil => intro init; simp [collectChain, mergeInlineStyle_empty]
  | cons x xs ih =>
    intro init
    simp only [List.foldl_cons]
    rw [ih (mergeInlineStyle init (parseInlineStyle x))]
    have hx : collectChain (x :: xs) =
        mergeInlineStyle (parseInlineStyle x) (collectChain xs) := by
      simp only [collectChain, List.foldl_cons]
      rw [ih, mergeInlineStyle_empty_left]
      rfl
    rw [hx, mergeInlineStyle_assoc]

/-- Unfolding the accumulator walk one ancestor at a time. -/
theorem collectChain_cons (x : Option String) (xs : List (Option String)) :
    collectChain (x :: xs) = mergeInlineStyle (parseInlineStyle x) (collectChain xs) := by
  simp only [collectChain, List.foldl_cons]
  rw [collectChain_from, mergeInlineStyle_empty_left]
  rfl

/-- The accumulator walk is a merge homomorphism on chains. -/
theorem collectChain_append (c1 c2 : List (Option String)) :
    collectChain (c1 ++ c2) = mergeInlineStyle (collectChain c1) (collectChain c2) := by
  have h1 : collectChain (c1 ++ c2) =
      List.foldl (fun acc sty => mergeInlineStyle acc (parseInlineStyle sty))
        (collectChain c1) c2 := by
    simp only [collectChain, List.foldl_append]
  rw [h1, collectChain_from]

set_option maxRecDepth 8000 in
/-- C6: ancestor style accumulation is first-write-wins from the text node's
parent upward — a field set by a nearer ancestor is never overwritten by a
farther one; unset fields take the documented defaults after the walk; an
ancestor's `font-weight: bold` resolves to 700 and a nearer
`font-weight: normal` overrides any farther value, resolving to 400. -/
theorem collectAncestorInlineStyle_first_write_wins :
    (∀ c1 c2 : List (Option String),
      collectChain (c1 ++ c2) = mergeInlineStyle (collectChain c1) (collectChain c2)) ∧
    (∀ (c1 c2 : List (Option String)) (w : JsNum),
      (collectChain c1).fontWeight = some w →
      (collectChain (c1 ++ c2)).fontWeight = some w) ∧
    (∀ dFontSize dLineHeight : JsNum,
      collectAncestorInlineStyle [] dFontSize dLineHeight =
        { fontSize := dFontSize, lineHeight := jsMul dFontSize dLineHeight,
          fontWeight := .num 400, italic := false, color := "#000", fontFamily := "" }) ∧
    ((collectAncestorInlineStyle [none, some ("font-weight: bold")] (.num 16)
      (.num (12/10))).fontWeight = JsNum.num 700) ∧
    (∀ rest : List (Option String),
      (collectAncestorInlineStyle (some ("font-weight: normal") :: rest) (.num 16)
        (.num (12/10))).fontWeight = JsNum.num 400) := by
  refine ⟨collectChain_append, ?_, ?_, ?_, ?_⟩
  · intro c1 c2 w hw
    rw [collectChain_append]
    simp only [mergeInlineStyle, hw]
    rfl
  · intro dFontSize dLineHeight
    rfl
  · with_unfolding_all decide
  · intro rest
    simp only [collectAncestorInlineStyle]
    rw [collectChain_cons]
    have hfw : (parseInlineStyle (some ("font-weight: normal"))).fontWeight =
        some (JsNum.num 400) := by with_unfolding_all decide
    simp [mergeInlineStyle, hfw, mergeInlineStyleValue]

set_option maxRecDepth 8000 in
/-- Witness for the first-write-wins theorem at a concrete chain: a nearer
`bold` is kept against a farther `normal`, and a nearer `normal` wins
against a farther `bold`. -/
theorem collectAncestorInlineStyle_first_write_wins_witness :
    ((collectChain [some ("font-weight: bold")]).fontWeight = some (JsNum.num 700)) ∧
    ((collectChain ([some ("font-weight: bold")] ++ [some ("font-weight: normal")])).fontWeight =
      some (JsNum.num 700)) ∧
    ((collectAncestorInlineStyle (some ("font-weight: normal") :: [some ("font-weight: bold")])
      (.num 16) (.num (12/10))).fontWeight = JsNum.num 400) := by
  refine ⟨by with_unfolding_all decide, ?_, ?_⟩
  · exact collectAncestorInlineStyle_first_write_wins.2.1 _ _ _ (by with_unfolding_all decide)
  · exact collectAncestorInlineStyle_first_write_wins.2.2.2.2 _

/-! ### Escaping lemmas -/

theorem replaceAllChar_nil (c : Char) (rep : List Char) : replaceAllChar c rep [] = [] := rfl

/-- One step of a global single-character replace. -/
theorem replaceAllChar_cons (c : Char) (rep : List Char) (x : Char) (l : List Char) :
    replaceAllChar c rep (x :: l) =
      (if x = c then rep else [x]) ++ replaceAllChar c rep l := by
  simp only [replaceAllChar, List.foldr_cons]
  split <;> simp

/-- A global single-character replace distributes over append. -/
theorem replaceAllChar_append (c : Char) (rep a b : List Char) :
    replaceAllChar c rep (a ++ b) = replaceAllChar c rep a ++ replaceAllChar c rep b := by
  induction a with
  | nil => rfl
  | cons x xs ih => simp [replaceAllChar_cons, ih, List.append_assoc]

/-- The five sequential replaces distribute over append. -/
theorem escapeHtmlL_append (a b : List Char) :
    escapeHtmlL (a ++ b) = escapeHtmlL a ++ escapeHtmlL b := by
  simp only [escapeHtmlL, replaceAllChar_append]

/-- On a single character the five sequential replaces act as the
per-character entity map — in particular the entities introduced by the `&`
replace are not re-escaped by the later replaces. -/
theorem escapeHtmlL_single (c : Char) : escapeHtmlL [c] = escapeChar c := by
  by_cases h1 : c = '&'
  · subst h1; with_unfolding_all decide
  by_cases h2 : c = '<'
  · subst h2; with_unfolding_all decide
  by_cases h3 : c = '>'
  · subst h3; with_unfolding_all decide
  by_cases h4 : c = '"'
  · subst h4; with_unfolding_all decide
  by_cases h5 : c = '\''
  · subst h5; with_unfolding_all decide
  simp [escapeHtmlL, replaceAllChar_cons, replaceAllChar_nil, escapeChar, h1, h2, h3, h4, h5]

/-- `escapeHtml` is exactly the per-character entity map. -/
theorem escapeHtmlL_flatten (l : List Char) :
    escapeHtmlL l = (l.map escapeChar).flatten := by
  induction l with
  | nil => rfl
  | cons c cs ih =>
    have hsplit : escapeHtmlL (c :: cs) = escapeHtmlL [c] ++ escapeHtmlL cs := by
      rw [← escapeHtmlL_append]; rfl
    rw [hsplit, escapeHtmlL_single, ih]
    simp

/-- No character of an entity block is a raw `<`, `>`, `"` or `'`. -/
theorem escapeChar_no_markup (c x : Char) (hx : x ∈ escapeChar c) :
    x ≠ '<' ∧ x ≠ '>' ∧ x ≠ '"' ∧ x ≠ '\'' := by
  unfold escapeChar at hx
  split at hx
  · have h : ("&amp;".data) = ['&', 'a', 'm', 'p', ';'] := rfl
    rw [h] at hx
    simp only [List.mem_cons, List.not_mem_nil, or_false] at hx
    rcases hx with h | h | h | h | h <;> subst h <;>
      exact ⟨by decide, by decide, by decide, by decide⟩
  split at hx
  · have h : ("&lt;".data) = ['&', 'l', 't', ';'] := rfl
    rw [h] at hx
    simp only [List.mem_cons, List.not_mem_nil, or_false] at hx
    rcases hx with h | h | h | h <;> subst h <;>
      exact ⟨by decide, by decide, by decide, by decide⟩
  split at hx
  · have h : ("&gt;".data) = ['&', 'g', 't', ';'] := rfl
    rw [h] at hx
    simp only [List.mem_cons, List.not_mem_nil, or_false] at hx
    rcases hx with h | h | h | h <;> subst h <;>
      exact ⟨by decide, by decide, by decide, by decide⟩
  split at hx
  · have h : ("&quot;".data) = ['&', 'q', 'u', 'o', 't', ';'] := rfl
    rw [h] at hx
    simp only [List.mem_cons, List.not_mem_nil, or_false] at hx
    rcases hx with h | h | h | h | h | h <;> subst h <;>
      exact ⟨by decide, by decide, by decide, by decide⟩
  split at hx
  · have h : ("&#39;".data) = ['&', '#', '3', '9', ';'] := rfl
    rw [h] at hx
    simp only [List.mem_cons, List.not_mem_nil, or_false] at hx
    rcases hx with h | h | h | h | h <;> subst h <;>
      exact ⟨by decide, by decide, by decide, by decide⟩
  · rename_i hn1 hn2 hn3 hn4 hn5
    simp only [List.mem_cons, List.not_mem_nil, or_false] at hx
    subst hx
    exact ⟨hn2, hn3, hn4, hn5⟩

theorem isPre_self_append (p r : List Char) : isPre p (p ++ r) = true := by
  induction p with
  | nil => rfl
  | cons a ps ih => simp [isPre, ih]

/-- Prepending one entity block preserves the no-raw-ampersand invariant. -/
theorem ampOkB_escape_block (c : Char) (R : List Char) (hR : ampOkB R = true) :
    ampOkB (escapeChar c ++ R) = true := by
  by_cases h1 : c = '&'
  · subst h1
    have h : escapeChar '&' ++ R = '&' :: ("amp;".data ++ R) := rfl
    rw [h]
    simp [ampOkB, isPre, isPre_self_append, hR]
  by_cases h2 : c = '<'
  · subst h2
    have h : escapeChar '<' ++ R = '&' :: ("lt;".data ++ R) := rfl
    rw [h]
    simp [ampOkB, isPre, isPre_self_append, hR]
  by_cases h3 : c = '>'
  · subst h3
    have h : escapeChar '>' ++ R = '&' :: ("gt;".data ++ R) := rfl
    rw [h]
    simp [ampOkB, isPre, isPre_self_append, hR]
  by_cases h4 : c = '"'
  · subst h4
    have h : escapeChar '"' ++ R = '&' :: ("quot;".data ++ R) := rfl
    rw [h]
    simp [ampOkB, isPre, isPre_self_append, hR]
  by_cases h5 : c = '\''
  · subst h5
    have h : escapeChar '\'' ++ R = '&' :: ("#39;".data ++ R) := rfl
    rw [h]
    simp [ampOkB, isPre, isPre_self_append, hR]
  · have h : escapeChar c ++ R = c :: R := by simp [escapeChar, h1, h2, h3, h4, h5]
    rw [h]
    simp [ampOkB, h1, hR]

/-- The escaped output never contains a raw, un-escaped ampersand. -/
theorem ampOkB_escapeHtmlL (l : List Char) : ampOkB (escapeHtmlL l) = true := by
  induction l with
  | nil => rfl
  | cons c cs ih =>
    have hsplit : escapeHtmlL (c :: cs) = escapeHtmlL [c] ++ escapeHtmlL cs := by
      rw [← escapeHtmlL_append]; rfl
    rw [hsplit, escapeHtmlL_single]
    exact ampOkB_escape_block c _ ih

/-- Infix via left-extension. -/
theorem isInfix_append_left {α : Type} (X : List α) {b Y : List α} (h : b <:+: Y) :
    b <:+: X ++ Y := by
  obtain ⟨s, t, rfl⟩ := h
  exact ⟨X ++ s, t, by simp [List.append_assoc]⟩

/-- A list is an infix of itself followed by anything. -/
theorem isInfix_self_append {α : Type} (b t : List α) : b <:+: b ++ t := ⟨[], t, rfl⟩

/-- C8: escaping replaces every occurrence of `& < > " '` in a run's content
by its entity; the escaped content is embedded in the rendered span; the
output contains no raw `<`, `>`, `"`, `'`, and every `&` in it begins one of
the five introduced entities (no double-escaping, because `&` is escaped
first). -/
theorem escapeHtml_correct (s : String) :
    (escapeHtml s).data = (s.data.map escapeChar).flatten ∧
    (∀ t : IntermediateText, (escapeHtml t.content).data <:+: (renderTextSpan t).data) ∧
    (∀ c ∈ (escapeHtml s).data, c ≠ '<' ∧ c ≠ '>' ∧ c ≠ '"' ∧ c ≠ '\'') ∧
    ampOkB (escapeHtml s).data = true := by
  refine ⟨escapeHtmlL_flatten s.data, ?_, ?_, ampOkB_escapeHtmlL s.data⟩
  · intro t
    simp only [renderTextSpan, String.data_append, List.append_assoc]
    repeat
      first
      | exact isInfix_self_append _ _
      | apply isInfix_append_left
  · intro c hc
    rw [show (escapeHtml s).data = escapeHtmlL s.data from rfl, escapeHtmlL_flatten] at hc
    rw [List.mem_flatten] at hc
    obtain ⟨blk, hblk, hcblk⟩ := hc
    obtain ⟨ch, _, rfl⟩ := List.mem_map.mp hblk
    exact escapeChar_no_markup ch c hcblk

/-- Prefix extension on the left. -/
theorem prefix_ext {α : Type} (a : List α) {b c : List α} (h : b <+: c) :
    a ++ b <+: a ++ c :=
  (List.prefix_append_right_inj a).mpr h

/-- C10: escaping is applied only to a run's content — the run's `id`,
`color` and `fontFamily`, and a page's id and thumbnail URL, are
interpolated verbatim (unescaped) into attribute positions of the produced
markup, so a field value containing a double quote appears unescaped in the
output. -/
theorem exporter_verbatim_fields :
    (∀ t : IntermediateText, t.id.data <:+: (renderTextSpan t).data) ∧
    (∀ t : IntermediateText, t.color ≠ "" → t.color ≠ "transparent" →
      ("color:" ++ t.color ++ ";").data <:+: (renderTextSpan t).data) ∧
    (∀ t : IntermediateText, t.fontFamily ≠ "" →
      ("font-family:" ++ t.fontFamily ++ ";").data <:+: (renderTextSpan t).data) ∧
    (∀ (p : IntermediatePage) (thumb : String), thumb ≠ "" →
      ("background-image:url(" ++ sglQuote ++ thumb ++ sglQuote ++ ");").data <:+:
        (lazyRenderPageDiv p (some thumb)).data) ∧
    (∀ p : IntermediatePage, p.id.data <:+: (lazyRenderPageDiv p none).data) := by
  refine ⟨?_, ?_, ?_, ?_, ?_⟩
  · intro t
    simp only [renderTextSpan, String.data_append, List.append_assoc]
    repeat
      first
      | exact List.IsPrefix.isInfix (List.prefix_append _ _)
      | apply isInfix_append_left
  · intro t h1 h2
    simp only [renderTextSpan, String.data_append, List.append_assoc, h1, h2, ne_eq,
      not_false_eq_true, and_self, if_true]
    repeat
      first
      | exact List.IsPrefix.isInfix (prefix_ext _ (prefix_ext _ (List.prefix_append _ _)))
      | apply isInfix_append_left
  · intro t h1
    simp only [renderTextSpan, String.data_append, List.append_assoc, h1, ne_eq,
      not_false_eq_true, if_true]
    repeat
      first
      | exact List.IsPrefix.isInfix (prefix_ext _ (prefix_ext _ (List.prefix_append _ _)))
      | apply isInfix_append_left
  · intro p thumb h1
    have hts : jsTruthyStr (some thumb) = true := by simp [jsTruthyStr, h1]
    simp only [lazyRenderPageDiv, hts, if_true, Option.getD_some, String.data_append,
      List.append_assoc]
    repeat
      first
      | exact List.IsPrefix.isInfix (prefix_ext _ (prefix_ext _ (prefix_ext _
          (prefix_ext _ (List.prefix_append _ _)))))
      | apply isInfix_append_left
  · intro p
    simp only [lazyRenderPageDiv, jsTruthyStr, String.data_append, List.append_assoc]
    repeat
      first
      | exact List.IsPrefix.isInfix (List.prefix_append _ _)
      | apply isInfix_append_left

/-- Witness: concrete run/page/thumbnail values whose id, color, font-family
and URL contain a double quote appear verbatim in the rendered markup. -/
theorem exporter_verbatim_fields_witness :
    (quoteRun.id.data <:+: (renderTextSpan quoteRun).data) ∧
    (("color:" ++ quoteRun.color ++ ";").data <:+: (renderTextSpan quoteRun).data) ∧
    (("font-family:" ++ quoteRun.fontFamily ++ ";").data <:+: (renderTextSpan quoteRun).data) ∧
    (("background-image:url(" ++ sglQuote ++ "u\"v" ++ sglQuote ++ ");").data <:+:
      (lazyRenderPageDiv quotePage (some ("u\"v"))).data) ∧
    (quotePage.id.data <:+: (lazyRenderPageDiv quotePage none).data) :=
  ⟨exporter_verbatim_fields.1 quoteRun,
    exporter_verbatim_fields.2.1 quoteRun (by with_unfolding_all decide)
      (by with_unfolding_all decide),
    exporter_verbatim_fields.2.2.1 quoteRun (by with_unfolding_all decide),
    exporter_verbatim_fields.2.2.2.1 quotePage ("u\"v") (by with_unfolding_all decide),
    exporter_verbatim_fields.2.2.2.2 quotePage⟩

/-! ### Importer layout lemmas -/

theorem sumHeights_append (y0 : JsNum) (l1 l2 : List IntermediateText) :
    sumHeights y0 (l1 ++ l2) = sumHeights (sumHeights y0 l1) l2 := by
  simp [sumHeights, List.foldl_append]

/-- `max(1, round(v))` is `NaN` or an actual number at least 1. -/
theorem jsMaxRound_cases (v : JsNum) :
    jsMax (.num 1) (jsRound v) = JsNum.nan ∨ jsGeOne (jsMax (.num 1) (jsRound v)) := by
  cases v with
  | nan => exact Or.inl rfl
  | num q => exact Or.inr ⟨max 1 (((q + 1/2).floor : ℤ) : ℚ), rfl, le_max_left _ _⟩

/-- `max(1, round(q))` on an actual number is at least 1. -/
theorem jsGeOne_maxRound (q : ℚ) : jsGeOne (jsMax (.num 1) (jsRound (.num q))) :=
  ⟨max 1 (((q + 1/2).floor : ℤ) : ℚ), rfl, le_max_left _ _⟩

/-- The block invariant concatenates. -/
theorem runsSpec_append (docId : String) :
    ∀ (l1 : List IntermediateText) (i0 : Nat) (y0 : JsNum) (l2 : List IntermediateText),
      runsSpec docId i0 y0 l1 → runsSpec docId (i0 + l1.length) (sumHeights y0 l1) l2 →
      runsSpec docId i0 y0 (l1 ++ l2) := by
  intro l1
  induction l1 with
  | nil =>
    intro i0 y0 l2 _ h2
    simpa [sumHeights] using h2
  | cons t ts ih =>
    intro i0 y0 l2 h1 h2
    simp only [runsSpec] at h1
    obtain ⟨hid, hx, hy, hv, hr, hs, he, hw, hh, htail⟩ := h1
    have hlen : i0 + (t :: ts).length = (i0 + 1) + ts.length := by
      simp
      omega
    rw [hlen] at h2
    exact ⟨hid, hx, hy, hv, hr, hs, he, hw, hh, ih (i0 + 1) (jsAdd y0 t.height) l2 htail h2⟩

/-- Read the per-index layout facts out of the block invariant. -/
theorem runsSpec_getD (docId : String) (d : IntermediateText) :
    ∀ (l : List IntermediateText) (i0 : Nat) (y0 : JsNum), runsSpec docId i0 y0 l →
      ∀ i, i < l.length →
        (l.getD i d).id = docId ++ "-page-1-text-" ++ Nat.repr (i0 + i) ∧
        (l.getD i d).x = JsNum.num 0 ∧
        (l.getD i d).y = sumHeights y0 (l.take i) ∧
        (l.getD i d).vertical = false ∧ (l.getD i d).rotate = JsNum.num 0 ∧
        (l.getD i d).skew = JsNum.num 0 ∧ (l.getD i d).isEOL = true := by
  intro l
  induction l with
  | nil => intro i0 y0 _ i hi; simp at hi
  | cons t ts ih =>
    intro i0 y0 h i hi
    simp only [runsSpec] at h
    obtain ⟨hid, hx, hy, hv, hr, hs, he, _, _, htail⟩ := h
    cases i with
    | zero =>
      simp only [List.getD_cons_zero, List.take_zero]
      exact ⟨by simpa using hid, hx, by simpa [sumHeights] using hy, hv, hr, hs, he⟩
    | succ j =>
      have hj : j < ts.length := by simpa using hi
      have hrec := ih (i0 + 1) (jsAdd y0 t.height) htail j hj
      simp only [List.getD_cons_succ, List.take_succ_cons]
      refine ⟨?_, hrec.2.1, ?_, hrec.2.2.2.1, hrec.2.2.2.2.1, hrec.2.2.2.2.2.1,
        hrec.2.2.2.2.2.2⟩
      · rw [show i0 + (j + 1) = (i0 + 1) + j from by omega]
        exact hrec.1
      · exact hrec.2.2.1
  
/-- Every run in a block satisfies the dimension facts. -/
theorem runsSpec_mem (docId : String) :
    ∀ (l : List IntermediateText) (i0 : Nat) (y0 : JsNum), runsSpec docId i0 y0 l →
      ∀ t ∈ l, (t.width = JsNum.nan ∨ jsGeOne t.width) ∧
        (t.height = JsNum.nan ∨ jsGeOne t.height) := by
  intro l
  induction l with
  | nil => intro _ _ _ t ht; simp at ht
  | cons x xs ih =>
    intro i0 y0 h t ht
    simp only [runsSpec] at h
    obtain ⟨_, _, _, _, _, _, _, hw, hh, htail⟩ := h
    rcases List.mem_cons.mp ht with rfl | hmem
    · exact ⟨hw, hh⟩
    · exact ih _ _ htail t hmem

mutual

/-- The `walk` of one node only appends runs: it extends the state by a
block of new runs that satisfies the layout invariant and whose contents are
exactly the surviving text nodes of that subtree. -/
theorem walkNode_appends (docId : String) (chain : List (Option String)) (s : WalkState)
    (n : DomNode) :
    ∃ new, walkNode docId chain s n =
        { idx := s.idx + new.length, y := sumHeights s.y new, texts := s.texts ++ new } ∧
      runsSpec docId s.idx s.y new ∧
      new.map (fun t => t.content) = survivingTexts n := by
  cases n with
  | element tag sty children =>
    by_cases hskip : tag = "SCRIPT" ∨ tag = "STYLE"
    · refine ⟨[], ?_, trivial, ?_⟩
      · simp [walkNode, hskip, sumHeights]
      · simp [survivingTexts, hskip]
    · obtain ⟨new, h1, h2, h3⟩ := walkList_appends docId (sty :: chain) s children
      refine ⟨new, ?_, h2, ?_⟩
      · rw [show walkNode docId chain s (.element tag sty children) =
          walkList docId (sty :: chain) s children from by simp [walkNode, hskip]]
        exact h1
      · rw [show survivingTexts (.element tag sty children) =
          survivingTextsList children from by simp [survivingTexts, hskip]]
        exact h3
  | textNode raw =>
    by_cases hc : (⟨jsTrimL (collapseWs raw.data)⟩ : String) = ""
    · refine ⟨[], ?_, trivial, ?_⟩
      · simp [walkNode, hc, sumHeights]
      · simp [survivingTexts, hc]
    · refine ⟨[makeRun docId s.idx s.y (⟨jsTrimL (collapseWs raw.data)⟩ : String)
        (collectAncestorInlineStyle chain (.num 16) (.num (12/10)))], ?_, ?_, ?_⟩
      · simp [walkNode, hc, sumHeights]
      · refine ⟨rfl, rfl, rfl, rfl, rfl, rfl, rfl, ?_, ?_, trivial⟩
        · exact jsMaxRound_cases _
        · exact jsMaxRound_cases _
      · simp [survivingTexts, hc, makeRun]
  | otherNode =>
    refine ⟨[], ?_, trivial, rfl⟩
    simp [walkNode, sumHeights]

/-- The `walk` of a child list only appends runs. -/
theorem walkList_appends (docId : String) (chain : List (Option String)) (s : WalkState)
    (l : List DomNode) :
    ∃ new, walkList docId chain s l =
        { idx := s.idx + new.length, y := sumHeights s.y new, texts := s.texts ++ new } ∧
      runsSpec docId s.idx s.y new ∧
      new.map (fun t => t.content) = survivingTextsList l := by
  cases l with
  | nil =>
    refine ⟨[], ?_, trivial, rfl⟩
    simp [walkList, sumHeights]
  | cons n rest =>
    obtain ⟨new1, h1, h2, h3⟩ := walkNode_appends docId chain s n
    obtain ⟨new2, g1, g2, g3⟩ := walkList_appends docId chain (walkNode docId chain s n) rest
    refine ⟨new1 ++ new2, ?_, ?_, ?_⟩
    · rw [show walkList docId chain s (n :: rest) =
        walkList docId chain (walkNode docId chain s n) rest from by simp [walkList]]
      rw [g1, h1]
      simp [sumHeights_append, List.append_assoc]
      omega
    · refine runsSpec_append docId new1 s.idx s.y new2 h2 ?_
      have := g2
      rw [h1] at this
      exact this
    · simp [h3, g3, survivingTextsList]

end

/-- C4: the n-th surviving text node (0-based, depth-first, script/style
skipped, whitespace-collapsed non-empty) produces the n-th run, whose id is
`"<documentId>-page-1-text-<n>"`, with `x = 0`, `y` the sum of the heights
of all earlier runs starting at 0, `vertical = false`, `rotate = 0`,
`skew = 0`, `isEOL = true`; and the page height is the maximum over all runs
of `y + height`, at least 1, rounded. -/
theorem collectTextsFromHtml_layout (docId : String) (chain : List (Option String))
    (body : DomNode) :
    ((collectTextsFromHtml docId chain body).texts.map (fun t => t.content) =
      survivingTexts body) ∧
    (∀ i, i < (collectTextsFromHtml docId chain body).texts.length →
      (((collectTextsFromHtml docId chain body).texts.getD i defaultRun).id =
          docId ++ "-page-1-text-" ++ Nat.repr i ∧
        ((collectTextsFromHtml docId chain body).texts.getD i defaultRun).x = JsNum.num 0 ∧
        ((collectTextsFromHtml docId chain body).texts.getD i defaultRun).y =
          sumHeights (JsNum.num 0) ((collectTextsFromHtml docId chain body).texts.take i) ∧
        ((collectTextsFromHtml docId chain body).texts.getD i defaultRun).vertical = false ∧
        ((collectTextsFromHtml docId chain body).texts.getD i defaultRun).rotate = JsNum.num 0 ∧
        ((collectTextsFromHtml docId chain body).texts.getD i defaultRun).skew = JsNum.num 0 ∧
        ((collectTextsFromHtml docId chain body).texts.getD i defaultRun).isEOL = true)) ∧
    ((collectTextsFromHtml docId chain body).pageHeight =
      jsMax (.num 1) (jsRound ((collectTextsFromHtml docId chain body).texts.foldl
        (fun a t => jsMax a (jsAdd t.y t.height)) (.num 0)))) := by
  obtain ⟨new, h1, h2, h3⟩ := walkNode_appends docId chain
    { idx := 0, y := .num 0, texts := [] } body
  have htexts : (collectTextsFromHtml docId chain body).texts = new := by
    simp [collectTextsFromHtml, h1]
  refine ⟨?_, ?_, rfl⟩
  · rw [htexts]; exact h3
  · intro i hi
    rw [htexts] at hi ⊢
    have hrec := runsSpec_getD docId defaultRun new 0 (.num 0) h2 i hi
    simpa using hrec

/-- Witness for the layout theorem on a concrete two-text-node body. -/
theorem collectTextsFromHtml_layout_witness :
    (1 < (collectTextsFromHtml ("d") [] body0).texts.length) ∧
    ((collectTextsFromHtml ("d") [] body0).texts.getD 1 defaultRun).id = "d-page-1-text-1" ∧
    ((collectTextsFromHtml ("d") [] body0).texts.getD 1 defaultRun).y =
      sumHeights (JsNum.num 0) ((collectTextsFromHtml ("d") [] body0).texts.take 1) :=
  ⟨by with_unfolding_all decide,
    ((collectTextsFromHtml_layout ("d") [] body0).2.1 1 (by with_unfolding_all decide)).1,
    ((collectTextsFromHtml_layout ("d") [] body0).2.1 1 (by with_unfolding_all decide)).2.2.1⟩

/-- C3 counterexample: a malformed `px`-suffixed `line-height` produces a
run whose height is `NaN` — not a number at least 1. -/
theorem run_dimensions_cx :
    ((collectTextsFromHtml ("d") [] (.element ("DIV") (some ("line-height: abcpx"))
      [.textNode ("hi")])).texts.map (fun t => t.height) = [JsNum.nan]) ∧
    ¬ jsGeOne JsNum.nan := by
  constructor
  · with_unfolding_all decide
  · rintro ⟨q, hq, -⟩
    exact JsNum.noConfusion hq

/-- The fallback loop preserves the dimension invariant when its fixed font
size and line height are actual numbers (as they are: 16 and 19). -/
theorem fallback_fold_preserves (docId : String) (fq lq : ℚ) :
    ∀ (lines : List (List Char)) (s : WalkState),
      (∀ t ∈ s.texts, jsGeOne t.width ∧ jsGeOne t.height) →
      ∀ t ∈ (lines.foldl (fallbackStep docId (.num fq) (.num lq)) s).texts,
        jsGeOne t.width ∧ jsGeOne t.height := by
  intro lines
  induction lines with
  | nil => intro s hs; exact hs
  | cons ln rest ih =>
    intro s hs
    rw [List.foldl_cons]
    refine ih _ ?_
    intro t ht
    simp only [fallbackStep] at ht
    split at ht
    · exact hs t ht
    · rcases List.mem_append.mp ht with h | h
      · exact hs t h
      · simp only [List.mem_singleton] at h
        subst h
        exact ⟨jsGeOne_maxRound _, jsGeOne_maxRound _⟩

/-- C3 amended: every run has width and height at least 1 after rounding,
except that in the structural path a malformed `px`-suffixed font-size or
line-height resolves to `NaN` and then the corresponding dimension is `NaN`;
in the fallback path the invariant holds unconditionally. -/
theorem run_dimensions_amended :
    (∀ (docId : String) (chain : List (Option String)) (body : DomNode),
      ∀ t ∈ (collectTextsFromHtml docId chain body).texts,
        (t.width = JsNum.nan ∨ jsGeOne t.width) ∧
        (t.height = JsNum.nan ∨ jsGeOne t.height)) ∧
    (∀ (html docId : String), ∀ t ∈ (fallbackPlainText html docId).texts,
      jsGeOne t.width ∧ jsGeOne t.height) := by
  constructor
  · intro docId chain body t ht
    obtain ⟨new, h1, h2, -⟩ := walkNode_appends docId chain
      { idx := 0, y := .num 0, texts := [] } body
    have hmem : t ∈ new := by simpa [collectTextsFromHtml, h1] using ht
    exact runsSpec_mem docId new 0 (.num 0) h2 t hmem
  · intro html docId t ht
    have hlh : jsRound (jsMul (JsNum.num 16) (JsNum.num (12/10))) = JsNum.num 19 := by
      with_unfolding_all decide
    have ht' : t ∈ ((splitNL html.data).foldl
        (fallbackStep docId (.num 16) (.num 19))
        { idx := 0, y := .num 0, texts := [] }).texts := by
      simpa [fallbackPlainText, hlh] using ht
    exact fallback_fold_preserves docId 16 19 (splitNL html.data)
      { idx := 0, y := .num 0, texts := [] } (by simp) t ht'

/-- Witness for the amended dimension invariant at concrete runs of both
paths. -/
theorem run_dimensions_amended_witness :
    (jsGeOne fbRun.width ∧ jsGeOne fbRun.height) ∧
    ((domRun.width = JsNum.nan ∨ jsGeOne domRun.width) ∧
      (domRun.height = JsNum.nan ∨ jsGeOne domRun.height)) :=
  ⟨run_dimensions_amended.2 ("hi") ("d") fbRun (by with_unfolding_all decide),
    run_dimensions_amended.1 ("d") [] (.textNode ("hi")) domRun
      (by with_unfolding_all decide)⟩

/-- Witness for the escaping theorem: the ampersand present in the escaped
output of `"a&b"` is not one of the four raw markup characters. -/
theorem escapeHtml_correct_witness :
    ('&' ∈ (escapeHtml ("a&b")).data) ∧
    ('&' ≠ '<' ∧ '&' ≠ '>' ∧ '&' ≠ '"' ∧ '&' ≠ '\'') :=
  ⟨by with_unfolding_all decide,
    (escapeHtml_correct ("a&b")).2.2.1 '&' (by with_unfolding_all decide)⟩
